import Mathlib

/-!
Verification of the reliability core of the ai-hedge-fund repository:
the merge cache (src/data/cache.py) and the LLM invocation wrapper
(src/utils/llm.py, src/llm/models.py), embedded shallowly.

Python dictionaries are modelled as association lists of string keys;
raising an exception is modelled by the `Except String` monad; the state
evolution of a statement that may raise is recovered by `runSet`, which
keeps the previous state on an error (the cache dictionary is only
assigned after the merge completes, so an exception leaves it untouched).
-/

namespace HedgeFund

/-- Python `d.get(k)` / `d[k]`-style lookup on an association list
(first binding wins, as in a dict where keys are unique). -/
def pyGet {α : Type} : List (String × α) → String → Option α
  | [], _ => none
  | (k, v) :: rest, key => if k = key then some v else pyGet rest key

/-- Python `d[k] = v`: replace the binding in place if the key is present,
otherwise append a new binding (dicts preserve insertion order). -/
def pySet {α : Type} : List (String × α) → String → α → List (String × α)
  | [], key, v => [(key, v)]
  | (k, w) :: rest, key, v =>
      if k = key then (key, v) :: rest else (k, w) :: pySet rest key v

/-- Python `item[key]` on a record dict: raises `KeyError` when absent. -/
def getItem {V : Type} (r : List (String × V)) (key : String) : Except String V :=
  match pyGet r key with
  | some v => Except.ok v
  | none => Except.error ("KeyError: " ++ key)

section CacheModel

variable {V : Type} [DecidableEq V]

/-- The set comprehension `\x7bitem[key_field] for item in existing\x7d` of
`Cache._merge_data`: collects the identity-field value of every record,
raising at the first record that lacks the field.  (The Python set is used
only for membership tests, so a list is an adequate model.) -/
def getKeys : List (List (String × V)) → String → Except String (List V)
  | [], _ => Except.ok []
  | r :: rs, key =>
    match getItem r key with
    | Except.error e => Except.error e
    | Except.ok v =>
      match getKeys rs key with
      | Except.error e => Except.error e
      | Except.ok vs => Except.ok (v :: vs)

/-- The list comprehension
`[item for item in new_data if item[key_field] not in existing_keys]`
of `Cache._merge_data`, evaluated left to right, raising at the first
record that lacks the field. -/
def filterNewItems : List (List (String × V)) → List V → String →
    Except String (List (List (String × V)))
  | [], _, _ => Except.ok []
  | r :: rs, ks, key =>
    match getItem r key with
    | Except.error e => Except.error e
    | Except.ok v =>
      match filterNewItems rs ks key with
      | Except.error e => Except.error e
      | Except.ok rest => Except.ok (if v ∈ ks then rest else r :: rest)

/-- `Cache._merge_data(existing, new_data, key_field)`:
if `existing` is `None` or empty, return `new_data` verbatim; otherwise
append to `existing` those new records whose identity value is fresh. -/
def mergeData (existing : Option (List (List (String × V))))
    (newData : List (List (String × V))) (keyField : String) :
    Except String (List (List (String × V))) :=
  match existing with
  | none => Except.ok newData
  | some ex =>
    if ex.isEmpty then Except.ok newData
    else
      match getKeys ex keyField with
      | Except.error e => Except.error e
      | Except.ok existingKeys =>
        match filterNewItems newData existingKeys keyField with
        | Except.error e => Except.error e
        | Except.ok newItems => Except.ok (ex ++ newItems)

/-- The `Cache` object: five dicts from ticker to a list of record dicts. -/
structure Cache (V : Type) where
  pricesCache : List (String × List (List (String × V)))
  financialMetricsCache : List (String × List (List (String × V)))
  lineItemsCache : List (String × List (List (String × V)))
  insiderTradesCache : List (String × List (List (String × V)))
  companyNewsCache : List (String × List (List (String × V)))

/-- `Cache.__init__`: all five dicts empty. -/
def emptyCache : Cache V := ⟨[], [], [], [], []⟩

/-- `Cache.get_prices`. -/
def getPrices (c : Cache V) (ticker : String) : Option (List (List (String × V))) :=
  pyGet c.pricesCache ticker

/-- `Cache.set_prices`: merge then assign the bucket (the assignment
happens only when the merge returns). -/
def setPrices (c : Cache V) (ticker : String) (data : List (List (String × V))) :
    Except String (Cache V) :=
  match mergeData (pyGet c.pricesCache ticker) data "time" with
  | Except.error e => Except.error e
  | Except.ok merged => Except.ok { c with pricesCache := pySet c.pricesCache ticker merged }

/-- `Cache.get_financial_metrics`. -/
def getFinancialMetrics (c : Cache V) (ticker : String) :
    Option (List (List (String × V))) :=
  pyGet c.financialMetricsCache ticker

/-- `Cache.set_financial_metrics`. -/
def setFinancialMetrics (c : Cache V) (ticker : String)
    (data : List (List (String × V))) : Except String (Cache V) :=
  match mergeData (pyGet c.financialMetricsCache ticker) data "report_period" with
  | Except.error e => Except.error e
  | Except.ok merged =>
      Except.ok { c with financialMetricsCache := pySet c.financialMetricsCache ticker merged }

/-- `Cache.get_line_items`. -/
def getLineItems (c : Cache V) (ticker : String) : Option (List (List (String × V))) :=
  pyGet c.lineItemsCache ticker

/-- `Cache.set_line_items`. -/
def setLineItems (c : Cache V) (ticker : String) (data : List (List (String × V))) :
    Except String (Cache V) :=
  match mergeData (pyGet c.lineItemsCache ticker) data "report_period" with
  | Except.error e => Except.error e
  | Except.ok merged =>
      Except.ok { c with lineItemsCache := pySet c.lineItemsCache ticker merged }

/-- `Cache.get_insider_trades`. -/
def getInsiderTrades (c : Cache V) (ticker : String) : Option (List (List (String × V))) :=
  pyGet c.insiderTradesCache ticker

/-- `Cache.set_insider_trades`. -/
def setInsiderTrades (c : Cache V) (ticker : String) (data : List (List (String × V))) :
    Except String (Cache V) :=
  match mergeData (pyGet c.insiderTradesCache ticker) data "filing_date" with
  | Except.error e => Except.error e
  | Except.ok merged =>
      Except.ok { c with insiderTradesCache := pySet c.insiderTradesCache ticker merged }

/-- `Cache.get_company_news`. -/
def getCompanyNews (c : Cache V) (ticker : String) : Option (List (List (String × V))) :=
  pyGet c.companyNewsCache ticker

/-- `Cache.set_company_news`. -/
def setCompanyNews (c : Cache V) (ticker : String) (data : List (List (String × V))) :
    Except String (Cache V) :=
  match mergeData (pyGet c.companyNewsCache ticker) data "date" with
  | Except.error e => Except.error e
  | Except.ok merged =>
      Except.ok { c with companyNewsCache := pySet c.companyNewsCache ticker merged }

end CacheModel

/-- The five record kinds held by the cache. -/
inductive CacheKind where
  | prices
  | financialMetrics
  | lineItems
  | insiderTrades
  | companyNews
deriving DecidableEq

/-- The identity field each kind deduplicates on (the `key_field`
argument passed by the corresponding setter in cache.py). -/
def keyFieldOf : CacheKind → String
  | CacheKind.prices => "time"
  | CacheKind.financialMetrics => "report_period"
  | CacheKind.lineItems => "report_period"
  | CacheKind.insiderTrades => "filing_date"
  | CacheKind.companyNews => "date"

section CacheKindOps

variable {V : Type} [DecidableEq V]

/-- Kind-indexed read, dispatching to the five getters. -/
def getData (k : CacheKind) (c : Cache V) (ticker : String) :
    Option (List (List (String × V))) :=
  match k with
  | CacheKind.prices => getPrices c ticker
  | CacheKind.financialMetrics => getFinancialMetrics c ticker
  | CacheKind.lineItems => getLineItems c ticker
  | CacheKind.insiderTrades => getInsiderTrades c ticker
  | CacheKind.companyNews => getCompanyNews c ticker

/-- Kind-indexed write, dispatching to the five setters. -/
def setData (k : CacheKind) (c : Cache V) (ticker : String)
    (data : List (List (String × V))) : Except String (Cache V) :=
  match k with
  | CacheKind.prices => setPrices c ticker data
  | CacheKind.financialMetrics => setFinancialMetrics c ticker data
  | CacheKind.lineItems => setLineItems c ticker data
  | CacheKind.insiderTrades => setInsiderTrades c ticker data
  | CacheKind.companyNews => setCompanyNews c ticker data

/-- Replacing the bucket of kind `k` for `ticker` (the dict assignment
performed by each setter once the merge has returned). -/
def updateBucket (k : CacheKind) (c : Cache V) (ticker : String)
    (merged : List (List (String × V))) : Cache V :=
  match k with
  | CacheKind.prices => { c with pricesCache := pySet c.pricesCache ticker merged }
  | CacheKind.financialMetrics =>
      { c with financialMetricsCache := pySet c.financialMetricsCache ticker merged }
  | CacheKind.lineItems => { c with lineItemsCache := pySet c.lineItemsCache ticker merged }
  | CacheKind.insiderTrades =>
      { c with insiderTradesCache := pySet c.insiderTradesCache ticker merged }
  | CacheKind.companyNews =>
      { c with companyNewsCache := pySet c.companyNewsCache ticker merged }

/-- The state reached by executing a set operation under Python exception
semantics: on success the new cache, on a raise the unchanged cache (the
dict assignment is sequenced after the merge, so a raising merge leaves
every bucket as it was). -/
def runSet (k : CacheKind) (c : Cache V) (ticker : String)
    (data : List (List (String × V))) : Cache V :=
  match setData k c ticker data with
  | Except.ok c2 => c2
  | Except.error _ => c

/-- The multiset of identity-field values present in a bucket (records
lacking the field contribute nothing). -/
def bucketKeyValues (key : String) (bucket : List (List (String × V))) : List V :=
  bucket.filterMap (fun r => pyGet r key)

/-- Whether a record's identity value is absent from a list of existing
identity values (the freshness test of the merge's list comprehension);
a record lacking the field is never counted as fresh. -/
def freshKeyB (key : String) (eks : List V) (r : List (String × V)) : Bool :=
  match pyGet r key with
  | some v => decide (v ∉ eks)
  | none => false

end CacheKindOps

/-! ## Target schemas and default-instance synthesis (src/utils/llm.py) -/

/-- The declared type of a pydantic field, restricted to the annotation
shapes `create_default_response` handles: `str`, `float`, `int`, `dict`,
and `Literal[...]` (a `Literal` annotation carries at least one allowed
value, so the first allowed value always exists). -/
inductive FieldTy where
  | ftStr
  | ftFloat
  | ftInt
  | ftDict
  | ftLiteral (first : String) (rest : List String)
deriving DecidableEq

/-- A runtime field value of a schema instance. -/
inductive Value where
  | vStr (s : String)
  | vFloat (q : ℚ)
  | vInt (n : Int)
  | vDict (entries : List (String × String))
deriving DecidableEq

/-- A target schema: the declared fields of the pydantic model class, in
declaration order. -/
abbrev Schema : Type := List (String × FieldTy)

/-- A schema instance: one value per field, in order. -/
abbrev Instance : Type := List (String × Value)

/-- The default `create_default_response` picks for one field, by its
declared annotation: placeholder string, `0.0`, `0`, `\x7b\x7d`, or the first
allowed literal value. -/
def defaultValueFor : FieldTy → Value
  | FieldTy.ftStr => Value.vStr "Error in analysis, using default"
  | FieldTy.ftFloat => Value.vFloat 0
  | FieldTy.ftInt => Value.vInt 0
  | FieldTy.ftDict => Value.vDict []
  | FieldTy.ftLiteral first _ => Value.vStr first

/-- `create_default_response(model_class)`: walk the declared fields in
order and assign each its type-based default. -/
def createDefaultResponse (s : Schema) : Instance :=
  s.map (fun f => (f.1, defaultValueFor f.2))

/-- Pydantic validation of one value against one declared field type. -/
def validValueB : FieldTy → Value → Bool
  | FieldTy.ftStr, Value.vStr _ => true
  | FieldTy.ftFloat, Value.vFloat _ => true
  | FieldTy.ftInt, Value.vInt _ => true
  | FieldTy.ftDict, Value.vDict _ => true
  | FieldTy.ftLiteral first rest, Value.vStr s => decide (s ∈ first :: rest)
  | _, _ => false

/-- An instance is valid for a schema when it assigns each declared field,
in order, a value of the declared type. -/
def validInstanceB : Schema → Instance → Bool
  | [], [] => true
  | (n, t) :: fs, (n', v) :: vs => decide (n = n') && validValueB t v && validInstanceB fs vs
  | _, _ => false

/-! ## JSON extraction from markdown fences (src/utils/llm.py) -/

/-- `s.startswith(pat)` on character lists. -/
def startsWithL : List Char → List Char → Bool
  | _, [] => true
  | [], _ :: _ => false
  | c :: cs, p :: ps => c == p && startsWithL cs ps

/-- Python `content.find(pat)`: index of the first occurrence, `none`
standing for the sentinel `-1`. -/
def findSub : List Char → List Char → Option Nat
  | [], pat => if startsWithL [] pat then some 0 else none
  | c :: cs, pat =>
    if startsWithL (c :: cs) pat then some 0
    else (findSub cs pat).map (fun i => i + 1)

/-- Python's `str.strip()` whitespace set. -/
def pyIsSpace (c : Char) : Bool :=
  c == ' ' || c == '\t' || c == '\n' || c == '\r' || c == '\x0b' || c == '\x0c'

/-- Python `s.strip()`: drop leading and trailing whitespace. -/
def pyStrip (s : List Char) : List Char :=
  ((s.dropWhile pyIsSpace).reverse.dropWhile pyIsSpace).reverse

/-- `extract_json_from_deepseek_response(content)`: locate the opening
fence tagged `json`, skip its 7 characters, locate the first closing
fence after it, strip the substring in between and hand it to the JSON
parser.  `loads` models `json.loads`, returning `none` when parsing
raises; any failure yields `none` (the source wraps the body in a
`try`/`except` returning `None`). -/
def extractJson {J : Type} (loads : List Char → Option J) (content : List Char) :
    Option J :=
  match findSub content ("```json".toList) with
  | none => none
  | some jsonStart =>
    let jsonText := content.drop (jsonStart + 7)
    match findSub jsonText ("```".toList) with
    | none => none
    | some jsonEnd => loads (pyStrip (jsonText.take jsonEnd))

/-! ## Model table and backend resolution (src/llm/models.py) -/

/-- A parsed Python object returned by `json.loads`. -/
inductive PyJson where
  | obj (fields : List (String × PyJson))
  | arr (elems : List PyJson)
  | str (s : String)
  | num (q : ℚ)
  | bool (b : Bool)
  | null

/-- Python truthiness of a parsed JSON object (`if parsed_result:`):
empty containers, empty strings, zero, `False` and `None` are falsy. -/
def pyTruthy : PyJson → Bool
  | PyJson.obj fields => !fields.isEmpty
  | PyJson.arr elems => !elems.isEmpty
  | PyJson.str s => !s.isEmpty
  | PyJson.num q => decide (q ≠ 0)
  | PyJson.bool b => b
  | PyJson.null => false

/-- An `LLMModel` row of the `AVAILABLE_MODELS` table.  The provider is
kept as its string value (the enum inherits from `str`). -/
structure LLMModel where
  displayName : String
  modelName : String
  provider : String
deriving DecidableEq

/-- `LLMModel.is_deepseek`: the technical name starts with `deepseek`. -/
def LLMModel.isDeepseekModel (m : LLMModel) : Bool :=
  m.modelName.startsWith "deepseek"

/-- Attribute access `ModelProvider.<member>` on the `ModelProvider`
enum of src/llm/models.py.  The enum declares only `OPENAI`, `GROQ` and
`ANTHROPIC` (each a `str` subclass carrying its value); accessing any
other member name raises `AttributeError`. -/
def modelProviderMember : String → Except String String
  | "OPENAI" => Except.ok "OpenAI"
  | "GROQ" => Except.ok "Groq"
  | "ANTHROPIC" => Except.ok "Anthropic"
  | name =>
      Except.error ("AttributeError: type object ModelProvider has no attribute " ++ name)

/-- The rows of the `AVAILABLE_MODELS` literal as written in
src/llm/models.py: display name, technical model name, and the NAME of
the `ModelProvider` member each row references (`ModelProvider.DEEPSEEK`
and `ModelProvider.GEMINI` are referenced although the enum does not
declare them). -/
def availableModelsSrc : List (String × String × String) :=
  [ ("[anthropic] claude-3.5-haiku", "claude-3-5-haiku-latest", "ANTHROPIC"),
    ("[anthropic] claude-3.5-sonnet", "claude-3-5-sonnet-latest", "ANTHROPIC"),
    ("[anthropic] claude-3.7-sonnet", "claude-3-7-sonnet-latest", "ANTHROPIC"),
    ("[deepseek] deepseek-r1", "deepseek-reasoner", "DEEPSEEK"),
    ("[deepseek] deepseek-v3", "deepseek-chat", "DEEPSEEK"),
    ("[gemini] gemini-2.0-flash", "gemini-2.0-flash", "GEMINI"),
    ("[gemini] gemini-2.0-pro", "gemini-2.0-pro-exp-02-05", "GEMINI"),
    ("[groq] llama-3.3 70b", "llama-3.3-70b-versatile", "GROQ"),
    ("[openai] gpt-4o", "gpt-4o", "OPENAI"),
    ("[openai] o1", "o1", "OPENAI"),
    ("[openai] o3-mini", "o3-mini", "OPENAI") ]

/-- Evaluation of the `AVAILABLE_MODELS` list literal: each row's
`ModelProvider.<member>` attribute is resolved in order, raising at the
first row whose member the enum does not declare. -/
def buildModels : List (String × String × String) → Except String (List LLMModel)
  | [] => Except.ok []
  | (d, m, p) :: rest =>
    match modelProviderMember p with
    | Except.error e => Except.error e
    | Except.ok pv =>
      match buildModels rest with
      | Except.error e => Except.error e
      | Except.ok ms => Except.ok (⟨d, m, pv⟩ :: ms)

/-- Executing the module body of llm.models (what
`from llm.models import get_model, get_model_info` runs on first use):
construct `AVAILABLE_MODELS`.  Row 4 references `ModelProvider.DEEPSEEK`,
which the enum does not declare, so the import raises `AttributeError`
and the module never loads. -/
def importLlmModels : Except String (List LLMModel) :=
  buildModels availableModelsSrc

/-- `get_model_info(model_name)`: first row of the (given) model table
whose technical name matches, else `None`. -/
def getModelInfo (models : List LLMModel) (modelName : String) : Option LLMModel :=
  models.find? (fun m => m.modelName == modelName)

/-- The process environment seen by `get_model`: which provider API keys
are set.  (Only the providers declared on the `ModelProvider` enum carry
a key; see `getModel` for the remaining branches.) -/
structure Env where
  groqKey : Option String
  openaiKey : Option String
  anthropicKey : Option String

/-- A constructed langchain chat client. -/
inductive ChatBackend where
  | chatGroq (model apiKey : String)
  | chatOpenAI (model apiKey : String)
  | chatAnthropic (model apiKey : String)
deriving DecidableEq

/-- `get_model(model_name, model_provider)`: branch on the provider
string (the enum inherits `str`, so `model_provider == ModelProvider.GROQ`
compares against `"Groq"`); a missing API key raises `ValueError`.  The
`ModelProvider` enum of the source declares only `OPENAI`, `GROQ` and
`ANTHROPIC`, so the source's later `ModelProvider.DEEPSEEK` comparison
raises `AttributeError` for any other provider string. -/
def getModel (env : Env) (modelName modelProvider : String) :
    Except String ChatBackend :=
  if modelProvider = "Groq" then
    match env.groqKey with
    | none =>
        Except.error
          "Groq API key not found. Please make sure GROQ_API_KEY is set in your .env file."
    | some k => Except.ok (ChatBackend.chatGroq modelName k)
  else if modelProvider = "OpenAI" then
    match env.openaiKey with
    | none =>
        Except.error
          "OpenAI API key not found. Please make sure OPENAI_API_KEY is set in your .env file."
    | some k => Except.ok (ChatBackend.chatOpenAI modelName k)
  else if modelProvider = "Anthropic" then
    match env.anthropicKey with
    | none =>
        Except.error
          "Anthropic API key not found. Please make sure ANTHROPIC_API_KEY is set in your .env file."
    | some k => Except.ok (ChatBackend.chatAnthropic modelName k)
  else
    Except.error "AttributeError: type object ModelProvider has no attribute DEEPSEEK"

/-! ## The retry loop of call_llm (src/utils/llm.py) -/

/-- How the resolved backend behaves, as fixed before the loop begins:
either it was wrapped with structured output (`with_structured_output`,
non-deepseek) and each invocation yields a schema instance or raises, or
it is a deepseek model whose invocation yields raw markdown text.
`loads` models `json.loads`; `toSchema` models the
`pydantic_model(**parsed_result)` constructor, which raises on a
non-conforming payload. -/
inductive LLMMode where
  | structured (invoke : Nat → Except String Instance)
  | deepseek (invoke : Nat → Except String (List Char))
      (loads : List Char → Option PyJson)
      (toSchema : PyJson → Except String Instance)

/-- The outcome of the attempt loop: the returned instance, how many
times the backend was invoked, how many times the status callback fired,
and whether the caller's `default_factory` produced the result. -/
structure LLMOutcome where
  result : Instance
  backendCalls : Nat
  callbackCalls : Nat
  usedFactory : Bool
deriving DecidableEq

/-- The `except` block of the attempt loop: update the status callback
count (only when an agent name was given), and, when this was the last
attempt (`rem = 0` iterations would remain), return the
`default_factory` result if one was supplied and the synthesized default
otherwise; on a non-final attempt, fall through to the rest of the loop
(`recEv`), accounting for this attempt's backend call and callback. -/
def afterException (agentName : Option String)
    (defaultFactory : Option (Unit → Instance)) (schema : Schema) (rem : Nat)
    (recEv : LLMOutcome) : LLMOutcome :=
  if rem = 0 then
    match defaultFactory with
    | some f => ⟨f (), 1, if agentName.isSome then 1 else 0, true⟩
    | none =>
        ⟨createDefaultResponse schema, 1, if agentName.isSome then 1 else 0, false⟩
  else
    ⟨recEv.result, recEv.backendCalls + 1,
      recEv.callbackCalls + (if agentName.isSome then 1 else 0), recEv.usedFactory⟩

/-- A deepseek attempt whose extraction produced no usable object falls
through to the next iteration without raising: one more backend call, no
callback. -/
def afterMiss (recEv : LLMOutcome) : LLMOutcome :=
  ⟨recEv.result, recEv.backendCalls + 1, recEv.callbackCalls, recEv.usedFactory⟩

/-- The `for attempt in range(max_retries)` loop of `call_llm`, started
at `attempt` with `rem` iterations left.  An exception inside the body is
handled by `afterException`; a deepseek extraction miss simply falls
through to the next attempt (`afterMiss`); falling out of the loop
returns the synthesized default. -/
def callLLMLoop (m : LLMMode) (agentName : Option String)
    (defaultFactory : Option (Unit → Instance)) (schema : Schema) :
    Nat → Nat → LLMOutcome
  | _, 0 => ⟨createDefaultResponse schema, 0, 0, false⟩
  | attempt, rem + 1 =>
    match m with
    | LLMMode.structured invoke =>
      match invoke attempt with
      | Except.ok inst => ⟨inst, 1, 0, false⟩
      | Except.error _ =>
          afterException agentName defaultFactory schema rem
            (callLLMLoop m agentName defaultFactory schema (attempt + 1) rem)
    | LLMMode.deepseek invoke loads toSchema =>
      match invoke attempt with
      | Except.error _ =>
          afterException agentName defaultFactory schema rem
            (callLLMLoop m agentName defaultFactory schema (attempt + 1) rem)
      | Except.ok content =>
        match extractJson loads content with
        | none => afterMiss (callLLMLoop m agentName defaultFactory schema (attempt + 1) rem)
        | some parsed =>
          if pyTruthy parsed then
            match toSchema parsed with
            | Except.ok inst => ⟨inst, 1, 0, false⟩
            | Except.error _ =>
                afterException agentName defaultFactory schema rem
                  (callLLMLoop m agentName defaultFactory schema (attempt + 1) rem)
          else afterMiss (callLLMLoop m agentName defaultFactory schema (attempt + 1) rem)

/-- `call_llm`: first execute the deferred
`from llm.models import get_model, get_model_info` (a raise there
propagates — and it does raise, because the module body's
`AVAILABLE_MODELS` references undeclared enum members); then resolve the
model info and backend (also outside any `try`/`except`), pick the
response mode from `is_deepseek`, and run the attempt loop (which cannot
raise). -/
def callLLM (env : Env) (modelName modelProvider : String) (schema : Schema)
    (structuredInvoke : Nat → Except String Instance)
    (rawInvoke : Nat → Except String (List Char))
    (loads : List Char → Option PyJson)
    (toSchema : PyJson → Except String Instance)
    (agentName : Option String) (maxRetries : Nat)
    (defaultFactory : Option (Unit → Instance)) : Except String LLMOutcome :=
  match importLlmModels with
  | Except.error e => Except.error e
  | Except.ok models =>
    let info := getModelInfo models modelName
    match getModel env modelName modelProvider with
    | Except.error e => Except.error e
    | Except.ok _ =>
      let isDS : Bool :=
        match info with
        | some m => m.isDeepseekModel
        | none => false
      if isDS then
        Except.ok (callLLMLoop (LLMMode.deepseek rawInvoke loads toSchema)
          agentName defaultFactory schema 0 maxRetries)
      else
        Except.ok (callLLMLoop (LLMMode.structured structuredInvoke)
          agentName defaultFactory schema 0 maxRetries)

/-! ## Association-list lemmas -/

theorem pyGet_pySet_self {α : Type} (l : List (String × α)) (key : String) (v : α) :
    pyGet (pySet l key v) key = some v := by
  induction l with
  | nil => simp [pySet, pyGet]
  | cons p rest ih =>
    obtain ⟨k, w⟩ := p
    by_cases hk : k = key
    · simp [pySet, hk, pyGet]
    · simp [pySet, hk, pyGet, ih]

theorem pySet_eq_self {α : Type} {l : List (String × α)} {key : String} {v : α}
    (h : pyGet l key = some v) : pySet l key v = l := by
  induction l with
  | nil => simp [pyGet] at h
  | cons p rest ih =>
    obtain ⟨k, w⟩ := p
    by_cases hk : k = key
    · subst hk
      simp [pyGet] at h
      simp [pySet, h]
    · simp [pyGet, hk] at h
      simp [pySet, hk, ih h]

theorem getItem_ok_iff {V : Type} {r : List (String × V)} {key : String} {v : V} :
    getItem r key = Except.ok v ↔ pyGet r key = some v := by
  unfold getItem
  cases h : pyGet r key <;> simp

theorem getItem_error_of_none {V : Type} {r : List (String × V)} {key : String}
    (h : pyGet r key = none) : getItem r key = Except.error ("KeyError: " ++ key) := by
  simp [getItem, h]

/-! ## getKeys and filterNewItems characterizations -/

theorem getKeys_ok_of_isSome {V : Type} {l : List (List (String × V))} {key : String}
    (h : ∀ r ∈ l, (pyGet r key).isSome) :
    getKeys l key = Except.ok (l.filterMap (fun r => pyGet r key)) := by
  induction l with
  | nil => rfl
  | cons r rs ih =>
    obtain ⟨v, hv⟩ := Option.isSome_iff_exists.mp (h r (by simp))
    have hrs : ∀ x ∈ rs, (pyGet x key).isSome := fun x hx => h x (by simp [hx])
    simp [getKeys, getItem, hv, ih hrs, List.filterMap_cons]

theorem getKeys_ok_elim {V : Type} {l : List (List (String × V))} {key : String}
    {ks : List V} (h : getKeys l key = Except.ok ks) :
    (∀ r ∈ l, (pyGet r key).isSome) ∧ ks = l.filterMap (fun r => pyGet r key) := by
  induction l generalizing ks with
  | nil =>
    simp [getKeys] at h
    subst h
    simp
  | cons r rs ih =>
    unfold getKeys at h
    cases hri : getItem r key with
    | error e => rw [hri] at h; simp at h
    | ok v =>
      rw [hri] at h
      cases hks : getKeys rs key with
      | error e => rw [hks] at h; simp at h
      | ok vs =>
        rw [hks] at h
        simp at h
        obtain ⟨hpres, hfm⟩ := ih hks
        have hv : pyGet r key = some v := getItem_ok_iff.mp hri
        refine ⟨?_, ?_⟩
        · intro x hx
          rcases List.mem_cons.mp hx with hx | hx
          · subst hx; simp [hv]
          · exact hpres x hx
        · rw [← h]
          simp [List.filterMap_cons, hv, hfm]

theorem filterNewItems_ok_of_isSome {V : Type} [DecidableEq V]
    {R : List (List (String × V))} {ks : List V} {key : String}
    (h : ∀ r ∈ R, (pyGet r key).isSome) :
    filterNewItems R ks key = Except.ok (R.filter (freshKeyB key ks)) := by
  induction R with
  | nil => rfl
  | cons r rs ih =>
    obtain ⟨v, hv⟩ := Option.isSome_iff_exists.mp (h r (by simp))
    have hrs : ∀ x ∈ rs, (pyGet x key).isSome := fun x hx => h x (by simp [hx])
    by_cases hm : v ∈ ks
    · simp [filterNewItems, getItem, hv, ih hrs, List.filter_cons, freshKeyB, hm]
    · simp [filterNewItems, getItem, hv, ih hrs, List.filter_cons, freshKeyB, hm]

theorem filterNewItems_ok_elim {V : Type} [DecidableEq V]
    {R out : List (List (String × V))} {ks : List V} {key : String}
    (h : filterNewItems R ks key = Except.ok out) :
    (∀ r ∈ R, (pyGet r key).isSome) ∧ out = R.filter (freshKeyB key ks) := by
  induction R generalizing out with
  | nil =>
    simp [filterNewItems] at h
    subst h
    simp
  | cons r rs ih =>
    unfold filterNewItems at h
    cases hri : getItem r key with
    | error e => rw [hri] at h; simp at h
    | ok v =>
      rw [hri] at h
      cases hrest : filterNewItems rs ks key with
      | error e => rw [hrest] at h; simp at h
      | ok rest =>
        rw [hrest] at h
        simp at h
        obtain ⟨hpres, hfm⟩ := ih hrest
        have hv : pyGet r key = some v := getItem_ok_iff.mp hri
        refine ⟨?_, ?_⟩
        · intro x hx
          rcases List.mem_cons.mp hx with hx | hx
          · subst hx; simp [hv]
          · exact hpres x hx
        · rw [← h]
          by_cases hm : v ∈ ks
          · simp [List.filter_cons, freshKeyB, hv, hm, hfm]
          · simp [List.filter_cons, freshKeyB, hv, hm, hfm]

theorem filterNewItems_error_of_missing {V : Type} [DecidableEq V]
    {R : List (List (String × V))} {ks : List V} {key : String}
    (h : ∃ r ∈ R, pyGet r key = none) :
    ∃ e, filterNewItems R ks key = Except.error e := by
  induction R with
  | nil => simp at h
  | cons r rs ih =>
    rcases h with ⟨x, hx, hnone⟩
    rcases List.mem_cons.mp hx with hx | hx
    · subst hx
      exact ⟨"KeyError: " ++ key, by simp [filterNewItems, getItem_error_of_none hnone]⟩
    · cases hri : getItem r key with
      | error e => exact ⟨e, by simp [filterNewItems, hri]⟩
      | ok v =>
        obtain ⟨e, he⟩ := ih ⟨x, hx, hnone⟩
        exact ⟨e, by simp [filterNewItems, hri, he]⟩

/-! ## mergeData characterizations -/

theorem mergeData_none {V : Type} [DecidableEq V] (R : List (List (String × V)))
    (key : String) : mergeData none R key = Except.ok R := rfl

theorem mergeData_nil {V : Type} [DecidableEq V] (R : List (List (String × V)))
    (key : String) : mergeData (some []) R key = Except.ok R := rfl

theorem mergeData_ok_nonempty_elim {V : Type} [DecidableEq V]
    {ex R b : List (List (String × V))} {key : String}
    (hne : ex ≠ []) (h : mergeData (some ex) R key = Except.ok b) :
    (∀ r ∈ ex, (pyGet r key).isSome) ∧ (∀ r ∈ R, (pyGet r key).isSome) ∧
      b = ex ++ R.filter (freshKeyB key (bucketKeyValues key ex)) := by
  simp only [mergeData] at h
  rw [if_neg (by simpa using hne)] at h
  cases hek : getKeys ex key with
  | error e => rw [hek] at h; simp at h
  | ok eks =>
    rw [hek] at h
    dsimp only at h
    cases hfn : filterNewItems R eks key with
    | error e => rw [hfn] at h; simp at h
    | ok newItems =>
      rw [hfn] at h
      simp at h
      obtain ⟨hexPres, hek2⟩ := getKeys_ok_elim hek
      obtain ⟨hRPres, hfn2⟩ := filterNewItems_ok_elim hfn
      subst hek2
      exact ⟨hexPres, hRPres, by rw [← h, hfn2]; rfl⟩

theorem mergeData_ok_nonempty_intro {V : Type} [DecidableEq V]
    {ex R : List (List (String × V))} {key : String}
    (hne : ex ≠ []) (hexPres : ∀ r ∈ ex, (pyGet r key).isSome)
    (hRPres : ∀ r ∈ R, (pyGet r key).isSome) :
    mergeData (some ex) R key
      = Except.ok (ex ++ R.filter (freshKeyB key (bucketKeyValues key ex))) := by
  simp only [mergeData]
  rw [if_neg (by simpa using hne), getKeys_ok_of_isSome hexPres]
  dsimp only
  rw [filterNewItems_ok_of_isSome hRPres]
  rfl

/-! ## setData dispatch lemmas -/

theorem setData_error {V : Type} [DecidableEq V] {k : CacheKind} {c : Cache V}
    {t : String} {R : List (List (String × V))} {e : String}
    (h : mergeData (getData k c t) R (keyFieldOf k) = Except.error e) :
    setData k c t R = Except.error e := by
  cases k <;>
    · simp only [setData, setPrices, setFinancialMetrics, setLineItems, setInsiderTrades,
        setCompanyNews, getData, getPrices, getFinancialMetrics, getLineItems,
        getInsiderTrades, getCompanyNews, keyFieldOf] at h ⊢
      rw [h]

theorem setData_ok {V : Type} [DecidableEq V] {k : CacheKind} {c : Cache V}
    {t : String} {R m : List (List (String × V))}
    (h : mergeData (getData k c t) R (keyFieldOf k) = Except.ok m) :
    setData k c t R = Except.ok (updateBucket k c t m) := by
  cases k <;>
    · simp only [setData, setPrices, setFinancialMetrics, setLineItems, setInsiderTrades,
        setCompanyNews, getData, getPrices, getFinancialMetrics, getLineItems,
        getInsiderTrades, getCompanyNews, keyFieldOf, updateBucket] at h ⊢
      rw [h]

theorem setData_ok_elim {V : Type} [DecidableEq V] {k : CacheKind} {c c1 : Cache V}
    {t : String} {R : List (List (String × V))}
    (h : setData k c t R = Except.ok c1) :
    ∃ m, mergeData (getData k c t) R (keyFieldOf k) = Except.ok m
      ∧ c1 = updateBucket k c t m := by
  cases hm : mergeData (getData k c t) R (keyFieldOf k) with
  | error e => rw [setData_error hm] at h; simp at h
  | ok m =>
    rw [setData_ok hm] at h
    simp at h
    exact ⟨m, rfl, h.symm⟩

theorem getData_updateBucket_self {V : Type} [DecidableEq V] (k : CacheKind)
    (c : Cache V) (t : String) (m : List (List (String × V))) :
    getData k (updateBucket k c t m) t = some m := by
  cases k <;>
    simp [getData, updateBucket, getPrices, getFinancialMetrics, getLineItems,
      getInsiderTrades, getCompanyNews, pyGet_pySet_self]

theorem updateBucket_eq_self {V : Type} [DecidableEq V] {k : CacheKind} {c : Cache V}
    {t : String} {m : List (List (String × V))} (h : getData k c t = some m) :
    updateBucket k c t m = c := by
  cases k <;>
    · simp only [getData, getPrices, getFinancialMetrics, getLineItems, getInsiderTrades,
        getCompanyNews] at h
      simp [updateBucket, pySet_eq_self h]

theorem runSet_of_error {V : Type} [DecidableEq V] {k : CacheKind} {c : Cache V}
    {t : String} {R : List (List (String × V))} {e : String}
    (h : setData k c t R = Except.error e) : runSet k c t R = c := by
  unfold runSet
  rw [h]

theorem runSet_of_ok {V : Type} [DecidableEq V] {k : CacheKind} {c c1 : Cache V}
    {t : String} {R : List (List (String × V))}
    (h : setData k c t R = Except.ok c1) : runSet k c t R = c1 := by
  unfold runSet
  rw [h]

theorem freshKeyB_false_of_mem {V : Type} [DecidableEq V] {key : String}
    {r : List (String × V)} {v : V} {eks : List V}
    (hv : pyGet r key = some v) (hmem : v ∈ eks) : freshKeyB key eks r = false := by
  simp [freshKeyB, hv, hmem]

theorem mergeData_error_nonempty {V : Type} [DecidableEq V]
    {ex R : List (List (String × V))} {key : String} (hne : ex ≠ [])
    (hexPres : ∀ r ∈ ex, (pyGet r key).isSome)
    (hmiss : ∃ r ∈ R, pyGet r key = none) :
    ∃ e, mergeData (some ex) R key = Except.error e := by
  obtain ⟨e, he⟩ :=
    @filterNewItems_error_of_missing V _ R (List.filterMap (fun r => pyGet r key) ex)
      key hmiss
  refine ⟨e, ?_⟩
  simp only [mergeData]
  rw [if_neg (by simpa using hne), getKeys_ok_of_isSome hexPres]
  dsimp only
  rw [he]

/-- Re-merging a freshly merged bucket with the same incoming list either
returns the bucket unchanged, or raises (only possible when the bucket was
stored verbatim and contains records lacking the identity field); in both
cases the stored state cannot change. -/
theorem mergeData_remerge {V : Type} [DecidableEq V]
    {exOpt : Option (List (List (String × V)))} {R b : List (List (String × V))}
    {key : String} (h : mergeData exOpt R key = Except.ok b) :
    mergeData (some b) R key = Except.ok b ∨
      ∃ e, mergeData (some b) R key = Except.error e := by
  have hself : ∀ (L : List (List (String × V))),
      mergeData (some L) L key = Except.ok L ∨
        ∃ e, mergeData (some L) L key = Except.error e := by
    intro L
    by_cases hL : L = []
    · subst hL; left; rfl
    · cases hek : getKeys L key with
      | error e =>
        right
        refine ⟨e, ?_⟩
        simp only [mergeData]
        rw [if_neg (by simpa using hL), hek]
      | ok ks =>
        obtain ⟨hpres, hks⟩ := getKeys_ok_elim hek
        left
        rw [mergeData_ok_nonempty_intro hL hpres hpres]
        have hfil : L.filter (freshKeyB key (bucketKeyValues key L)) = [] := by
          rw [List.filter_eq_nil_iff]
          intro r hr
          obtain ⟨v, hv⟩ := Option.isSome_iff_exists.mp (hpres r hr)
          have hmem : v ∈ bucketKeyValues key L :=
            List.mem_filterMap.mpr ⟨r, hr, hv⟩
          simp [freshKeyB_false_of_mem hv hmem]
        rw [hfil, List.append_nil]
  match exOpt with
  | none =>
    simp only [mergeData_none] at h
    simp only [Except.ok.injEq] at h
    subst h
    exact hself R
  | some ex =>
    by_cases hne : ex = []
    · subst hne
      simp only [mergeData_nil, Except.ok.injEq] at h
      subst h
      exact hself R
    · obtain ⟨hexPres, hRPres, hb⟩ := mergeData_ok_nonempty_elim hne h
      left
      have hbne : b ≠ [] := by
        rw [hb]
        intro hcontra
        exact hne (List.append_eq_nil.mp hcontra).1
      have hbPres : ∀ r ∈ b, (pyGet r key).isSome := by
        intro r hr
        rw [hb] at hr
        rcases List.mem_append.mp hr with hr | hr
        · exact hexPres r hr
        · exact hRPres r (List.mem_of_mem_filter hr)
      rw [mergeData_ok_nonempty_intro hbne hbPres hRPres]
      have hfil : R.filter (freshKeyB key (bucketKeyValues key b)) = [] := by
        rw [List.filter_eq_nil_iff]
        intro r hr
        obtain ⟨v, hv⟩ := Option.isSome_iff_exists.mp (hRPres r hr)
        have hmem : v ∈ bucketKeyValues key b := by
          by_cases hstale : v ∈ bucketKeyValues key ex
          · rw [hb]
            unfold bucketKeyValues at hstale ⊢
            rw [List.filterMap_append]
            exact List.mem_append_left _ hstale
          · have hfresh : freshKeyB key (bucketKeyValues key ex) r = true := by
              simp [freshKeyB, hv, hstale]
            have hrb : r ∈ b := by
              rw [hb]
              exact List.mem_append_right _ (List.mem_filter.mpr ⟨hr, hfresh⟩)
            exact List.mem_filterMap.mpr ⟨r, hrb, hv⟩
        simp [freshKeyB_false_of_mem hv hmem]
      rw [hfil, List.append_nil]

theorem runSet_reapply {V : Type} [DecidableEq V] {k : CacheKind} {c c1 : Cache V}
    {t : String} {R : List (List (String × V))}
    (h : setData k c t R = Except.ok c1) : runSet k c1 t R = c1 := by
  obtain ⟨m, hm, hc1⟩ := setData_ok_elim h
  have hbucket : getData k c1 t = some m := by
    rw [hc1]; exact getData_updateBucket_self k c t m
  rcases mergeData_remerge hm with hok | ⟨e, herr⟩
  · have hset : setData k c1 t R = Except.ok (updateBucket k c1 t m) := by
      apply setData_ok
      rw [hbucket]
      exact hok
    rw [runSet_of_ok hset, updateBucket_eq_self hbucket]
  · have hset : setData k c1 t R = Except.error e := by
      apply setData_error
      rw [hbucket]
      exact herr
    exact runSet_of_error hset

/-- Preservation of the per-bucket key-uniqueness invariant by one set
operation, provided the incoming list itself carries no duplicate
identity value. -/
theorem runSet_preserves_nodup {V : Type} [DecidableEq V] (k : CacheKind)
    (c : Cache V) (t : String) (R : List (List (String × V)))
    (hc : (bucketKeyValues (keyFieldOf k) ((getData k c t).getD [])).Nodup)
    (hR : (bucketKeyValues (keyFieldOf k) R).Nodup) :
    (bucketKeyValues (keyFieldOf k) ((getData k (runSet k c t R) t).getD [])).Nodup := by
  cases hs : setData k c t R with
  | error e => rw [runSet_of_error hs]; exact hc
  | ok c1 =>
    rw [runSet_of_ok hs]
    obtain ⟨m, hm, hc1⟩ := setData_ok_elim hs
    have hbucket : getData k c1 t = some m := by
      rw [hc1]; exact getData_updateBucket_self k c t m
    rw [hbucket, Option.getD_some]
    cases hex : getData k c t with
    | none =>
      rw [hex, mergeData_none] at hm
      simp only [Except.ok.injEq] at hm
      subst hm
      exact hR
    | some ex =>
      by_cases hne : ex = []
      · subst hne
        rw [hex, mergeData_nil] at hm
        simp only [Except.ok.injEq] at hm
        subst hm
        exact hR
      · rw [hex] at hm hc
        obtain ⟨hexPres, hRPres, hmEq⟩ := mergeData_ok_nonempty_elim hne hm
        subst hmEq
        rw [Option.getD_some] at hc
        unfold bucketKeyValues at hc hR ⊢
        rw [List.filterMap_append]
        apply List.Nodup.append hc
        · exact ((List.filter_sublist R).filterMap _).nodup hR
        · intro v hv1 hv2
          obtain ⟨r, hrmem, hrv⟩ := List.mem_filterMap.mp hv2
          have hfresh := (List.mem_filter.mp hrmem).2
          unfold freshKeyB at hfresh
          rw [hrv] at hfresh
          exact of_decide_eq_true hfresh hv1

/-! ## findSub: Python str.find returns the first occurrence -/

theorem findSub_none_iff (s pat : List Char) :
    findSub s pat = none ↔ ∀ i, startsWithL (s.drop i) pat = false := by
  induction s with
  | nil =>
    cases hb : startsWithL [] pat with
    | false =>
      simp only [findSub, hb, Bool.false_eq_true, if_false]
      simp [hb]
    | true =>
      simp only [findSub, hb, if_true]
      constructor
      · intro h; simp at h
      · intro h
        have := h 0
        rw [List.drop_nil] at this
        rw [hb] at this
        simp at this
  | cons c cs ih =>
    cases hb : startsWithL (c :: cs) pat with
    | true =>
      simp only [findSub, hb, if_true]
      constructor
      · intro h; simp at h
      · intro h
        have := h 0
        rw [List.drop_zero] at this
        rw [hb] at this
        simp at this
    | false =>
      simp only [findSub, hb, Bool.false_eq_true, if_false]
      rw [Option.map_eq_none', ih]
      constructor
      · intro h i
        cases i with
        | zero => rw [List.drop_zero]; exact hb
        | succ i => rw [List.drop_succ_cons]; exact h i
      · intro h i
        have := h (i + 1)
        rwa [List.drop_succ_cons] at this

theorem findSub_some_elim (s pat : List Char) :
    ∀ i, findSub s pat = some i →
      startsWithL (s.drop i) pat = true ∧ ∀ j, j < i → startsWithL (s.drop j) pat = false := by
  induction s with
  | nil =>
    intro i h
    cases hb : startsWithL [] pat with
    | false => simp [findSub, hb] at h
    | true =>
      simp [findSub, hb] at h
      subst h
      exact ⟨by rw [List.drop_nil]; exact hb, fun j hj => absurd hj (Nat.not_lt_zero j)⟩
  | cons c cs ih =>
    intro i h
    cases hb : startsWithL (c :: cs) pat with
    | true =>
      simp [findSub, hb] at h
      subst h
      exact ⟨by rw [List.drop_zero]; exact hb, fun j hj => absurd hj (Nat.not_lt_zero j)⟩
    | false =>
      simp only [findSub, hb, Bool.false_eq_true, if_false] at h
      rw [Option.map_eq_some'] at h
      obtain ⟨i', hi', rfl⟩ := h
      obtain ⟨h1, h2⟩ := ih i' hi'
      refine ⟨by rw [List.drop_succ_cons]; exact h1, ?_⟩
      intro j hj
      cases j with
      | zero => rw [List.drop_zero]; exact hb
      | succ j => rw [List.drop_succ_cons]; exact h2 j (by omega)

theorem findSub_some_intro (s pat : List Char) (i : Nat)
    (h1 : startsWithL (s.drop i) pat = true)
    (h2 : ∀ j, j < i → startsWithL (s.drop j) pat = false) :
    findSub s pat = some i := by
  cases hf : findSub s pat with
  | none =>
    have := (findSub_none_iff s pat).mp hf i
    rw [h1] at this
    simp at this
  | some i' =>
    obtain ⟨h1', h2'⟩ := findSub_some_elim s pat i' hf
    rcases Nat.lt_trichotomy i i' with hlt | heq | hgt
    · have := h2' i hlt
      rw [h1] at this
      simp at this
    · rw [heq]
    · have := h2 i' hgt
      rw [h1'] at this
      simp at this

/-! ## Count lemmas for the merge -/

theorem count_filter_of_neg {α : Type} [BEq α] [LawfulBEq α] {p : α → Bool} {l : List α}
    {a : α} (h : p a = false) : List.count a (l.filter p) = 0 := by
  rw [List.count_eq_zero]
  intro hmem
  have := (List.mem_filter.mp hmem).2
  rw [h] at this
  simp at this

/-! ## call_llm loop lemmas -/

theorem defaultValueFor_valid (t : FieldTy) : validValueB t (defaultValueFor t) = true := by
  cases t <;> simp [defaultValueFor, validValueB]

theorem createDefaultResponse_valid (s : Schema) :
    validInstanceB s (createDefaultResponse s) = true := by
  induction s with
  | nil => rfl
  | cons f fs ih =>
    obtain ⟨n, t⟩ := f
    simp [createDefaultResponse, validInstanceB, defaultValueFor_valid] at ih ⊢
    exact ih

/-- The hypothesis that a mode's successful outputs conform to the
target schema (the structured-output wrapper and the pydantic
constructor validate what they return). -/
def modeConformant (schema : Schema) : LLMMode → Prop
  | LLMMode.structured invoke =>
      ∀ i inst, invoke i = Except.ok inst → validInstanceB schema inst = true
  | LLMMode.deepseek _ _ toSchema =>
      ∀ j inst, toSchema j = Except.ok inst → validInstanceB schema inst = true

theorem callLLMLoop_result_valid (m : LLMMode) (agentName : Option String)
    (defaultFactory : Option (Unit → Instance)) (schema : Schema)
    (hm : modeConformant schema m)
    (hf : ∀ f, defaultFactory = some f → validInstanceB schema (f ()) = true) :
    ∀ rem attempt,
      validInstanceB schema
        (callLLMLoop m agentName defaultFactory schema attempt rem).result = true := by
  intro rem
  induction rem with
  | zero =>
    intro attempt
    simp [callLLMLoop, createDefaultResponse_valid]
  | succ rem ih =>
    intro attempt
    have hExc : validInstanceB schema
        (afterException agentName defaultFactory schema rem
          (callLLMLoop m agentName defaultFactory schema (attempt + 1) rem)).result
        = true := by
      unfold afterException
      by_cases hrem : rem = 0
      · rw [if_pos hrem]
        cases hfa : defaultFactory with
        | none => simpa using createDefaultResponse_valid schema
        | some f => simpa using hf f hfa
      · rw [if_neg hrem]
        simpa using ih (attempt + 1)
    cases m with
    | structured invoke =>
      cases hi : invoke attempt with
      | ok inst =>
        simp [callLLMLoop, hi]
        exact hm attempt inst hi
      | error e =>
        simp [callLLMLoop, hi]
        exact hExc
    | deepseek invoke loads toSchema =>
      cases hi : invoke attempt with
      | error e =>
        simp [callLLMLoop, hi]
        exact hExc
      | ok content =>
        cases hx : extractJson loads content with
        | none =>
          simp [callLLMLoop, hi, hx, afterMiss]
          exact ih (attempt + 1)
        | some parsed =>
          cases ht : pyTruthy parsed with
          | false =>
            simp [callLLMLoop, hi, hx, ht, afterMiss]
            exact ih (attempt + 1)
          | true =>
            cases hts : toSchema parsed with
            | ok inst =>
              simp [callLLMLoop, hi, hx, ht, hts]
              exact hm parsed inst hts
            | error e =>
              simp [callLLMLoop, hi, hx, ht, hts]
              exact hExc

/-- When every attempt's backend call succeeds but extraction yields
nothing, the deepseek loop burns through all remaining attempts without
ever raising, never fires the callback, never consults the factory, and
ends on the synthesized default. -/
theorem callLLMLoop_deepseek_allMiss (rawInvoke : Nat → Except String (List Char))
    (loads : List Char → Option PyJson) (toSchema : PyJson → Except String Instance)
    (agentName : Option String) (defaultFactory : Option (Unit → Instance))
    (schema : Schema) :
    ∀ rem attempt,
      (∀ i, attempt ≤ i → i < attempt + rem →
        ∃ c, rawInvoke i = Except.ok c ∧ extractJson loads c = none) →
      callLLMLoop (LLMMode.deepseek rawInvoke loads toSchema) agentName defaultFactory
          schema attempt rem
        = ⟨createDefaultResponse schema, rem, 0, false⟩ := by
  intro rem
  induction rem with
  | zero => intro attempt h; rfl
  | succ rem ih =>
    intro attempt h
    obtain ⟨c, hc, hx⟩ := h attempt (Nat.le_refl _) (by omega)
    have hrec := ih (attempt + 1) (fun i h1 h2 => h i (by omega) (by omega))
    simp [callLLMLoop, hc, hx, afterMiss, hrec]

/-- The factory result is only ever returned out of the `except` handler
of the final attempt, i.e. when that attempt's failure was a raised
exception (a backend raise, or the pydantic constructor raising on the
extracted payload). -/
theorem callLLMLoop_usedFactory_elim (rawInvoke : Nat → Except String (List Char))
    (loads : List Char → Option PyJson) (toSchema : PyJson → Except String Instance)
    (agentName : Option String) (defaultFactory : Option (Unit → Instance))
    (schema : Schema) :
    ∀ rem attempt,
      (callLLMLoop (LLMMode.deepseek rawInvoke loads toSchema) agentName defaultFactory
          schema attempt rem).usedFactory = true →
      (∃ e, rawInvoke (attempt + rem - 1) = Except.error e) ∨
      (∃ c j e, rawInvoke (attempt + rem - 1) = Except.ok c ∧
        extractJson loads c = some j ∧ pyTruthy j = true ∧
        toSchema j = Except.error e) := by
  intro rem
  induction rem with
  | zero => intro attempt h; simp [callLLMLoop] at h
  | succ rem ih =>
    intro attempt h
    have hidx : attempt + 1 + rem - 1 = attempt + (rem + 1) - 1 := by omega
    have hExcCase : ∀ e, rawInvoke attempt = Except.error e →
        (afterException agentName defaultFactory schema rem
          (callLLMLoop (LLMMode.deepseek rawInvoke loads toSchema) agentName
            defaultFactory schema (attempt + 1) rem)).usedFactory = true →
        (∃ e, rawInvoke (attempt + (rem + 1) - 1) = Except.error e) ∨
        (∃ c j e, rawInvoke (attempt + (rem + 1) - 1) = Except.ok c ∧
          extractJson loads c = some j ∧ pyTruthy j = true ∧
          toSchema j = Except.error e) := by
      intro e he hu
      unfold afterException at hu
      by_cases hrem : rem = 0
      · subst hrem
        left
        refine ⟨e, ?_⟩
        have : attempt + (0 + 1) - 1 = attempt := by omega
        rw [this]
        exact he
      · rw [if_neg hrem] at hu
        simp at hu
        rw [← hidx]
        exact ih (attempt + 1) hu
    cases hi : rawInvoke attempt with
    | error e =>
      simp only [callLLMLoop, hi] at h
      exact hExcCase e hi h
    | ok content =>
      cases hx : extractJson loads content with
      | none =>
        simp only [callLLMLoop, hi, hx, afterMiss] at h
        rw [← hidx]
        exact ih (attempt + 1) h
      | some parsed =>
        cases ht : pyTruthy parsed with
        | false =>
          simp only [callLLMLoop, hi, hx, ht, Bool.false_eq_true, if_false,
            afterMiss] at h
          rw [← hidx]
          exact ih (attempt + 1) h
        | true =>
          cases hts : toSchema parsed with
          | ok inst =>
            simp only [callLLMLoop, hi, hx, ht, if_true, hts] at h
            simp at h
          | error e =>
            simp only [callLLMLoop, hi, hx, ht, if_true, hts] at h
            unfold afterException at h
            by_cases hrem : rem = 0
            · subst hrem
              right
              refine ⟨content, parsed, e, ?_, hx, ht, hts⟩
              have : attempt + (0 + 1) - 1 = attempt := by omega
              rw [this]
              exact hi
            · rw [if_neg hrem] at h
              simp at h
              rw [← hidx]
              exact ih (attempt + 1) h

/-! ## Claim C3: merge characterization -/

/-- C3 counterexample: with `existing = [\x7bid:A\x7d]` and
`incoming = [\x7bid:B\x7d, \x7bid:B\x7d]`, the record `\x7bid:B\x7d` has a fresh
identity value, yet it appears twice in the merge result — the freshness
filter tests incoming records only against `existing`, not against each
other, so "appears exactly once" fails. -/
theorem claim3_counterexample :
    mergeData (some [[("id", "A")]]) [[("id", "B")], [("id", "B")]] "id"
      = Except.ok [[("id", "A")], [("id", "B")], [("id", "B")]]
    ∧ freshKeyB "id" (bucketKeyValues "id" [[("id", "A")]]) [("id", "B")] = true
    ∧ List.count ([("id", "B")] : List (String × String))
        [[("id", "A")], [("id", "B")], [("id", "B")]] = 2 := by
  refine ⟨rfl, by decide, by decide⟩

/-- C3 (amended): for every non-empty `existing` and every `incoming`
whose records all carry the identity field, the merge returns `existing`
followed by exactly the incoming records whose identity value does not
occur in `existing`, in incoming order; every existing record appears in
the result; every fresh-keyed incoming record appears exactly as many
times as it occurs in `incoming` (hence exactly once when `incoming` has
no duplicate records); every stale-keyed incoming record is dropped (its
count in the result is its count in `existing`). -/
theorem claim3_merge_characterization {V : Type} [DecidableEq V]
    (ex R : List (List (String × V))) (key : String)
    (hne : ex ≠ [])
    (hexPres : ∀ r ∈ ex, (pyGet r key).isSome)
    (hRPres : ∀ r ∈ R, (pyGet r key).isSome) :
    mergeData (some ex) R key
      = Except.ok (ex ++ R.filter (freshKeyB key (bucketKeyValues key ex)))
    ∧ (∀ r ∈ ex, r ∈ ex ++ R.filter (freshKeyB key (bucketKeyValues key ex)))
    ∧ (∀ r ∈ R, freshKeyB key (bucketKeyValues key ex) r = true →
        List.count r (ex ++ R.filter (freshKeyB key (bucketKeyValues key ex)))
          = List.count r R)
    ∧ (∀ r ∈ R, freshKeyB key (bucketKeyValues key ex) r = false →
        List.count r (ex ++ R.filter (freshKeyB key (bucketKeyValues key ex)))
          = List.count r ex) := by
  refine ⟨mergeData_ok_nonempty_intro hne hexPres hRPres, ?_, ?_, ?_⟩
  · intro r hr
    exact List.mem_append_left _ hr
  · intro r hr hfresh
    have hnotex : r ∉ ex := by
      intro hrex
      obtain ⟨v, hv⟩ := Option.isSome_iff_exists.mp (hRPres r hr)
      have hmem : v ∈ bucketKeyValues key ex := List.mem_filterMap.mpr ⟨r, hrex, hv⟩
      rw [freshKeyB_false_of_mem hv hmem] at hfresh
      simp at hfresh
    have h0 : List.count r ex = 0 := List.count_eq_zero.mpr hnotex
    have h1 : List.count r (List.filter (freshKeyB key (bucketKeyValues key ex)) R)
        = List.count r R := List.count_filter hfresh
    rw [List.count_append]
    omega
  · intro r hr hfresh
    have h0 : List.count r (List.filter (freshKeyB key (bucketKeyValues key ex)) R)
        = 0 := count_filter_of_neg hfresh
    rw [List.count_append]
    omega

/-- C3 witness: the spec's own duplicate-drop example — old `A` wins,
`B` is appended, `\x7bid:A, v:2\x7d` is discarded. -/
theorem claim3_witness :
    mergeData (some [[("id", "A"), ("v", "1")]])
        [[("id", "A"), ("v", "2")], [("id", "B"), ("v", "3")]] "id"
      = Except.ok [[("id", "A"), ("v", "1")], [("id", "B"), ("v", "3")]] := by
  have h := (claim3_merge_characterization
    [[("id", "A"), ("v", "1")]]
    [[("id", "A"), ("v", "2")], [("id", "B"), ("v", "3")]] "id"
    (by decide) (by decide) (by decide)).1
  rw [h]
  rfl

/-! ## Claim C4: per-bucket identity uniqueness -/

/-- C4 counterexample: the very first set for a ticker stores the
incoming list verbatim, so an incoming list with two records sharing the
identity value `t1` ends up in the bucket as-is, violating the
uniqueness invariant. -/
theorem claim4_counterexample :
    getPrices (runSet CacheKind.prices (emptyCache : Cache String) "AAPL"
        [[("time", "t1")], [("time", "t1")]]) "AAPL"
      = some [[("time", "t1")], [("time", "t1")]]
    ∧ ¬ (bucketKeyValues "time"
        ([[("time", "t1")], [("time", "t1")]] : List (List (String × String)))).Nodup := by
  refine ⟨by decide, by decide⟩

/-- C4 (amended): for every sequence of set operations of one kind on
one ticker starting from the empty cache, the stored bucket never holds
two records with the same identity value, provided each incoming list
itself carries pairwise-distinct identity values (the code never
deduplicates an incoming list against itself, so this proviso is
necessary: see the counterexample). -/
theorem claim4_bucket_invariant {V : Type} [DecidableEq V] (k : CacheKind) (t : String)
    (steps : List (List (List (String × V))))
    (h : ∀ R ∈ steps, (bucketKeyValues (keyFieldOf k) R).Nodup) :
    (bucketKeyValues (keyFieldOf k)
      ((getData k (steps.foldl (fun c R => runSet k c t R) (emptyCache : Cache V)) t).getD
        [])).Nodup := by
  have haux : ∀ (sl : List (List (List (String × V)))) (c : Cache V),
      (∀ R ∈ sl, (bucketKeyValues (keyFieldOf k) R).Nodup) →
      (bucketKeyValues (keyFieldOf k) ((getData k c t).getD [])).Nodup →
      (bucketKeyValues (keyFieldOf k)
        ((getData k (sl.foldl (fun c R => runSet k c t R) c) t).getD [])).Nodup := by
    intro sl
    induction sl with
    | nil => intro c _ hc; simpa using hc
    | cons R rs ih =>
      intro c hall hc
      rw [List.foldl_cons]
      exact ih _ (fun R' hR' => hall R' (List.mem_cons_of_mem _ hR'))
        (runSet_preserves_nodup k c t R hc (hall R (List.mem_cons_self _ _)))
  apply haux steps (emptyCache : Cache V) h
  have hbase : getData k (emptyCache : Cache V) t = none := by cases k <;> rfl
  rw [hbase]
  simp [bucketKeyValues]

/-- C4 witness: two successive sets with duplicate-free incoming lists,
overlapping across the two sets, keep the bucket duplicate-free. -/
theorem claim4_witness :
    (∀ R ∈ ([[[("time", "a")]], [[("time", "b")], [("time", "a")]]] :
        List (List (List (String × String)))),
      (bucketKeyValues (keyFieldOf CacheKind.prices) R).Nodup)
    ∧ (bucketKeyValues (keyFieldOf CacheKind.prices)
        ((getData CacheKind.prices
          (List.foldl (fun c R => runSet CacheKind.prices c "T" R)
            (emptyCache : Cache String)
            [[[("time", "a")]], [[("time", "b")], [("time", "a")]]]) "T").getD
          [])).Nodup :=
  ⟨by decide, claim4_bucket_invariant CacheKind.prices "T" _ (by decide)⟩

/-! ## Claim C5: records missing the identity field -/

/-- C5 counterexample: a record without the kind's identity field
(`time`) stored into an empty/absent bucket is accepted silently — the
verbatim branch of the merge never touches the identity field, so the
set succeeds instead of failing loudly. -/
theorem claim5_counterexample :
    setPrices (emptyCache : Cache String) "AAPL" [[("close", "100")]]
      = Except.ok (⟨[("AAPL", [[("close", "100")]])], [], [], [], []⟩ : Cache String)
    ∧ pyGet ([("close", "100")] : List (String × String)) "time" = none := by
  refine ⟨rfl, rfl⟩

/-- C5 (amended): a set whose incoming list contains a record lacking
the kind's identity field raises (`KeyError`) when the stored bucket is
non-empty (and its records carry the field); but when the bucket is
empty or absent, the incoming list — validated in no way — is stored
verbatim, so the operation does NOT fail loudly in that case. -/
theorem claim5_missing_identity_field {V : Type} [DecidableEq V] :
    (∀ (k : CacheKind) (c : Cache V) (t : String) (R ex : List (List (String × V))),
      getData k c t = some ex → ex ≠ [] →
      (∀ r ∈ ex, (pyGet r (keyFieldOf k)).isSome) →
      (∃ r ∈ R, pyGet r (keyFieldOf k) = none) →
      ∃ e, setData k c t R = Except.error e)
    ∧ (∀ (k : CacheKind) (c : Cache V) (t : String) (R : List (List (String × V))),
      (getData k c t = none ∨ getData k c t = some []) →
      setData k c t R = Except.ok (updateBucket k c t R)) := by
  constructor
  · intro k c t R ex hex hne hexPres hmiss
    obtain ⟨e, he⟩ := mergeData_error_nonempty hne hexPres hmiss
    refine ⟨e, setData_error ?_⟩
    rw [hex]
    exact he
  · intro k c t R h
    apply setData_ok
    rcases h with h | h
    · rw [h]; exact mergeData_none R _
    · rw [h]; exact mergeData_nil R _

/-- C5 witness: with a non-empty prices bucket, a record lacking `time`
makes the set raise. -/
theorem claim5_witness :
    ∃ e, setData CacheKind.prices
      (⟨[("T", [[("time", "a")]])], [], [], [], []⟩ : Cache String) "T"
      [[("x", "1")]] = Except.error e :=
  (claim5_missing_identity_field).1 CacheKind.prices _ "T" _ [[("time", "a")]]
    (by decide) (by decide) (by decide) ⟨[("x", "1")], by decide, by decide⟩

/-! ## Claim C6: re-merging the same records is a no-op -/

/-- C6: for every kind, ticker and record list, performing the set twice
leaves the state exactly as after the first set: the second merge either
returns the bucket unchanged or raises before the assignment, and under
Python exception semantics (`runSet`) both leave the cache as it was. -/
theorem claim6_remerge_noop {V : Type} [DecidableEq V] (k : CacheKind) (c : Cache V)
    (t : String) (R : List (List (String × V))) :
    runSet k (runSet k c t R) t R = runSet k c t R := by
  cases h : setData k c t R with
  | error e => rw [runSet_of_error h, runSet_of_error h]
  | ok c1 => rw [runSet_of_ok h, runSet_reapply h]

/-! ## Claim C10: set operations are atomic with respect to errors -/

/-- C10: if the merge raises, the whole cache state is unchanged — the
stored sequence for the affected ticker and every bucket of every other
ticker and kind is exactly as before the call, because the dict
assignment is sequenced after the merge. -/
theorem claim10_set_atomicity {V : Type} [DecidableEq V] (k : CacheKind) (c : Cache V)
    (t : String) (R : List (List (String × V))) (e : String)
    (h : mergeData (getData k c t) R (keyFieldOf k) = Except.error e) :
    runSet k c t R = c ∧
      ∀ k' t', getData k' (runSet k c t R) t' = getData k' c t' := by
  have h1 : runSet k c t R = c := runSet_of_error (setData_error h)
  exact ⟨h1, fun k' t' => by rw [h1]⟩

/-- C10 witness: a merge raising `KeyError: time` on a record without
the identity field leaves the concrete cache untouched. -/
theorem claim10_witness :
    mergeData
        (getData CacheKind.prices
          (⟨[("T", [[("time", "a")]]), ("U", [[("time", "b")]])], [], [], [], []⟩ :
            Cache String) "T")
        [[("x", "1")]] (keyFieldOf CacheKind.prices) = Except.error "KeyError: time"
    ∧ runSet CacheKind.prices
        (⟨[("T", [[("time", "a")]]), ("U", [[("time", "b")]])], [], [], [], []⟩ :
          Cache String) "T" [[("x", "1")]]
      = (⟨[("T", [[("time", "a")]]), ("U", [[("time", "b")]])], [], [], [], []⟩ :
          Cache String) :=
  ⟨rfl,
    (claim10_set_atomicity CacheKind.prices
      (⟨[("T", [[("time", "a")]]), ("U", [[("time", "b")]])], [], [], [], []⟩ :
        Cache String) "T" [[("x", "1")]] "KeyError: time" rfl).1⟩

/-! ## Claim C1: call_llm raise containment -/

/-- C1 counterexample: even with every API key present, a recognized
model/provider, and a backend that would succeed on the first attempt,
`call_llm` raises: its deferred `from llm.models import ...` executes
the module body of llm.models, whose `AVAILABLE_MODELS` references the
undeclared enum member `ModelProvider.DEEPSEEK`, so the import raises
`AttributeError` before the attempt loop can run — refuting "never
raises past its boundary and always returns an instance of the target
schema". -/
theorem claim1_counterexample :
    callLLM ⟨some "gk", some "ok", some "ak"⟩ "gpt-4o" "OpenAI"
        [("x", FieldTy.ftInt)]
        (fun _ => Except.ok [("x", Value.vInt 7)]) (fun _ => Except.error "x")
        (fun _ => none) (fun _ => Except.error "x") none 3 none
      = Except.error "AttributeError: type object ModelProvider has no attribute DEEPSEEK" :=
  rfl

/-- C1 (amended): `call_llm` never returns a value at all — every
invocation, for every prompt, model name/provider, schema, attempt limit
and fallback factory, raises `AttributeError` at the deferred import of
llm.models (the module body constructs `AVAILABLE_MODELS`, whose fourth
row references `ModelProvider.DEEPSEEK`, a member the enum does not
declare), so model resolution, the attempt loop, the fallback synthesis
and the schema-conformant return are all unreachable. -/
theorem claim1_import_failure (env : Env) (modelName modelProvider : String)
    (schema : Schema) (structuredInvoke : Nat → Except String Instance)
    (rawInvoke : Nat → Except String (List Char)) (loads : List Char → Option PyJson)
    (toSchema : PyJson → Except String Instance) (agentName : Option String)
    (maxRetries : Nat) (defaultFactory : Option (Unit → Instance)) :
    callLLM env modelName modelProvider schema structuredInvoke rawInvoke loads
        toSchema agentName maxRetries defaultFactory
      = Except.error "AttributeError: type object ModelProvider has no attribute DEEPSEEK" :=
  rfl

/-! ## Claim C2: retry exhaustion -/

/-- C2: when every backend attempt raises and `max_attempts = 3` with an
agent name provided, the backend is invoked exactly 3 times, the status
callback fires exactly 3 times (once per failed attempt), and the loop
returns — without raising — the `fallback_factory` output when a factory
was supplied, and the synthesized default otherwise; the result is
schema-valid (given a schema-valid factory). -/
theorem claim2_retry_exhaustion (schema : Schema)
    (invoke : Nat → Except String Instance) (a : String)
    (factory : Option (Unit → Instance))
    (hfail : ∀ i, i < 3 → ∃ e, invoke i = Except.error e)
    (hfv : ∀ f, factory = some f → validInstanceB schema (f ()) = true) :
    callLLMLoop (LLMMode.structured invoke) (some a) factory schema 0 3
      = ⟨(factory.map (fun f => f ())).getD (createDefaultResponse schema), 3, 3,
          factory.isSome⟩
    ∧ validInstanceB schema
        (callLLMLoop (LLMMode.structured invoke) (some a) factory schema 0 3).result
      = true := by
  obtain ⟨e0, h0⟩ := hfail 0 (by omega)
  obtain ⟨e1, h1⟩ := hfail 1 (by omega)
  obtain ⟨e2, h2⟩ := hfail 2 (by omega)
  have hloop : callLLMLoop (LLMMode.structured invoke) (some a) factory schema 0 3
      = ⟨(factory.map (fun f => f ())).getD (createDefaultResponse schema), 3, 3,
          factory.isSome⟩ := by
    cases hfa : factory with
    | none =>
      show callLLMLoop (LLMMode.structured invoke) (some a) none schema 0 (2 + 1) = _
      simp [callLLMLoop, h0, h1, h2, afterException]
    | some f =>
      show callLLMLoop (LLMMode.structured invoke) (some a) (some f) schema 0 (2 + 1) = _
      simp [callLLMLoop, h0, h1, h2, afterException]
  refine ⟨hloop, ?_⟩
  rw [hloop]
  cases hfa : factory with
  | none => simpa using createDefaultResponse_valid schema
  | some f => simpa using hfv f hfa

/-- C2 witness: a backend raising on all three attempts with a factory
supplied — 3 backend calls, 3 callbacks, factory output returned. -/
theorem claim2_witness :
    callLLMLoop (LLMMode.structured (fun _ => Except.error "boom")) (some "agent")
        (some (fun _ => [("sig", Value.vStr "hold")])) [("sig", FieldTy.ftStr)] 0 3
      = ⟨[("sig", Value.vStr "hold")], 3, 3, true⟩ :=
  (claim2_retry_exhaustion [("sig", FieldTy.ftStr)] (fun _ => Except.error "boom")
    "agent" (some (fun _ => [("sig", Value.vStr "hold")]))
    (fun _ _ => ⟨"boom", rfl⟩)
    (fun f hf => by cases hf; rfl)).1

/-! ## Claim C7: default-instance synthesis -/

/-- C7: default synthesis assigns every declared field a value by its
declared type — the placeholder string for string fields, `0.0` for
float fields, `0` for integer fields, the empty mapping for mapping
fields, and the first allowed value for a restricted-choice field — the
result is a valid instance of the schema, and on the schema
(string, float, choice of bullish/bearish/neutral) the default carries a
string, `0.0` and `"bullish"`. -/
theorem claim7_default_synthesis (s : Schema) :
    validInstanceB s (createDefaultResponse s) = true
    ∧ (∀ n t, (n, t) ∈ s → ∃ v, (n, v) ∈ createDefaultResponse s ∧
        (match t with
         | FieldTy.ftStr => ∃ msg, v = Value.vStr msg
         | FieldTy.ftFloat => v = Value.vFloat 0
         | FieldTy.ftInt => v = Value.vInt 0
         | FieldTy.ftDict => v = Value.vDict []
         | FieldTy.ftLiteral first _ => v = Value.vStr first))
    ∧ createDefaultResponse
        [("reasoning", FieldTy.ftStr), ("confidence", FieldTy.ftFloat),
         ("signal", FieldTy.ftLiteral "bullish" ["bearish", "neutral"])]
      = [("reasoning", Value.vStr "Error in analysis, using default"),
         ("confidence", Value.vFloat 0), ("signal", Value.vStr "bullish")] := by
  refine ⟨createDefaultResponse_valid s, ?_, rfl⟩
  intro n t hmem
  refine ⟨defaultValueFor t, List.mem_map.mpr ⟨(n, t), hmem, rfl⟩, ?_⟩
  cases t
  case ftStr => exact ⟨_, rfl⟩
  case ftFloat => rfl
  case ftInt => rfl
  case ftDict => rfl
  case ftLiteral first rest => rfl

/-- C7 witness: the choice field of the example schema receives its
first allowed value, `"bullish"`. -/
theorem claim7_witness :
    ∃ v, ("signal", v) ∈ createDefaultResponse
        [("reasoning", FieldTy.ftStr), ("confidence", FieldTy.ftFloat),
         ("signal", FieldTy.ftLiteral "bullish" ["bearish", "neutral"])]
      ∧ v = Value.vStr "bullish" := by
  obtain ⟨v, hv, hm⟩ := (claim7_default_synthesis
    [("reasoning", FieldTy.ftStr), ("confidence", FieldTy.ftFloat),
     ("signal", FieldTy.ftLiteral "bullish" ["bearish", "neutral"])]).2.1
    "signal" (FieldTy.ftLiteral "bullish" ["bearish", "neutral"]) (by decide)
  exact ⟨v, hv, hm⟩

/-! ## Claim C8: fenced-JSON extraction -/

/-- C8: extraction locates the first opening fence tagged `json`, then
the first closing fence after it, and hands the stripped substring in
between to the JSON parser, returning the parsed object; with no such
fenced block the extraction yields `none`, and a parse failure
(`loads` returning `none`) likewise yields `none`. -/
theorem claim8_extraction {J : Type} (loads : List Char → Option J)
    (content : List Char) :
    ((∀ i, startsWithL (content.drop i) ("```json".toList) = false) →
      extractJson loads content = none)
    ∧ (∀ i, startsWithL (content.drop i) ("```json".toList) = true →
        (∀ i', i' < i → startsWithL (content.drop i') ("```json".toList) = false) →
        ((∀ j, startsWithL ((content.drop (i + 7)).drop j) ("```".toList) = false) →
          extractJson loads content = none)
        ∧ (∀ j, startsWithL ((content.drop (i + 7)).drop j) ("```".toList) = true →
            (∀ j', j' < j →
              startsWithL ((content.drop (i + 7)).drop j') ("```".toList) = false) →
            extractJson loads content
              = loads (pyStrip ((content.drop (i + 7)).take j)))) := by
  constructor
  · intro h
    unfold extractJson
    rw [(findSub_none_iff content _).mpr h]
  · intro i hi himin
    have hfind : findSub content ("```json".toList) = some i :=
      findSub_some_intro _ _ i hi himin
    constructor
    · intro h
      unfold extractJson
      rw [hfind]
      dsimp only
      rw [(findSub_none_iff _ _).mpr h]
    · intro j hj hjmin
      have hfind2 : findSub (content.drop (i + 7)) ("```".toList) = some j :=
        findSub_some_intro _ _ j hj hjmin
      unfold extractJson
      rw [hfind]
      dsimp only
      rw [hfind2]

/-- C8 witness: a concrete fenced block — opening fence first at index
2, closing fence first at index 9 of the remainder — extracts the
stripped JSON text between the fences. -/
theorem claim8_witness :
    extractJson (fun s => some s) ("ab```json \x7b\"x\":1\x7d ```cd".toList)
      = some ("\x7b\"x\":1\x7d".toList) := by
  have h := ((claim8_extraction (fun s => some s)
      ("ab```json \x7b\"x\":1\x7d ```cd".toList)).2 2 (by decide) (by decide)).2 9
    (by decide) (by decide)
  rw [h]
  rfl

/-! ## Claim C9: deepseek extraction misses consume all attempts -/

/-- C9: in deepseek mode, when every attempt's backend call returns
without raising but extraction yields nothing, the loop consumes all
`max_retries` attempts, never fires the status callback, and returns the
generically synthesized default — not the factory output, even when a
factory was supplied; the factory result is only ever used when the
final attempt's failure is a raised exception (a backend raise or the
pydantic constructor raising). -/
theorem claim9_deepseek_extraction_miss (rawInvoke : Nat → Except String (List Char))
    (loads : List Char → Option PyJson) (toSchema : PyJson → Except String Instance)
    (agentName : Option String) (defaultFactory : Option (Unit → Instance))
    (schema : Schema) (maxRetries : Nat) :
    ((∀ i, i < maxRetries →
        ∃ c, rawInvoke i = Except.ok c ∧ extractJson loads c = none) →
      callLLMLoop (LLMMode.deepseek rawInvoke loads toSchema) agentName defaultFactory
          schema 0 maxRetries
        = ⟨createDefaultResponse schema, maxRetries, 0, false⟩)
    ∧ (∀ attempt rem,
        (callLLMLoop (LLMMode.deepseek rawInvoke loads toSchema) agentName
            defaultFactory schema attempt rem).usedFactory = true →
        (∃ e, rawInvoke (attempt + rem - 1) = Except.error e) ∨
        (∃ c j e, rawInvoke (attempt + rem - 1) = Except.ok c ∧
          extractJson loads c = some j ∧ pyTruthy j = true ∧
          toSchema j = Except.error e)) := by
  constructor
  · intro h
    exact callLLMLoop_deepseek_allMiss rawInvoke loads toSchema agentName
      defaultFactory schema maxRetries 0 (fun i _ h2 => h i (by omega))
  · exact fun attempt rem =>
      callLLMLoop_usedFactory_elim rawInvoke loads toSchema agentName
        defaultFactory schema rem attempt

/-- C9 witness: two attempts, both returning text with no fenced block,
a factory supplied — the loop returns the synthesized default after 2
backend calls and 0 callbacks, without consulting the factory. -/
theorem claim9_witness :
    callLLMLoop
        (LLMMode.deepseek (fun _ => Except.ok ("no json here".toList))
          (fun _ => none) (fun _ => Except.error "boom"))
        (some "agent") (some (fun _ => [("a", Value.vStr "factory")]))
        [("a", FieldTy.ftStr)] 0 2
      = ⟨createDefaultResponse [("a", FieldTy.ftStr)], 2, 0, false⟩ :=
  (claim9_deepseek_extraction_miss (fun _ => Except.ok ("no json here".toList))
    (fun _ => none) (fun _ => Except.error "boom") (some "agent")
    (some (fun _ => [("a", Value.vStr "factory")])) [("a", FieldTy.ftStr)] 2).1
    (fun _ _ => ⟨"no json here".toList, rfl, rfl⟩)

end HedgeFund
